import Mathlib

/-!
Verification development for the `ServerDataManager` component of comp_hack
(`src/libcomp/src/ServerDataManager.cpp` / `.h`): a shallow embedding of the
zone-composition engine (`GetZoneData` / `ApplyZonePartial`), the recursive
action-sequence validator (`ValidateActions` / `TriggerIsAutoContext`), the
zone / zone-partial / zone-instance load steps and the `ExistsInInstance`
query, together with theorems settling the specification's claims.

Embedding conventions:
* `uint32_t` identifiers become `Nat` (no arithmetic is ever performed on
  them, so no wraparound can occur in the modelled code paths);
* `float` coordinates become `ℚ`; `fabs(a - b) < 10.f` becomes `|a - b| < 10`;
* `std::unordered_map<K, V>` becomes an association list `List (Nat × V)`
  (unique keys; insertion order used as iteration order);
* `std::set<uint32_t>` becomes `Finset ℕ`; iterating over a `std::set` in a
  ranged `for` visits elements in ascending order, which is modelled by
  folding over `Finset.sort (· ≤ ·)`;
* the polymorphic `objects::Action` class hierarchy becomes a nested
  inductive: the four subclasses the validator downcasts to
  (`ActionZoneChange`, `ActionZoneInstance`, `ActionDelay`, `ActionSpawn`)
  are dedicated constructors carrying the fields the validator reads, and
  every other action kind is `basic` carrying only its `ActionType_t` tag;
* logging is side-effect free in the model; `LOG_WARNING` calls inside
  `ValidateActions` are modelled by counting them (the second component of
  its result), `LOG_ERROR` / `LOG_DEBUG` are dropped;
* fallible operations return `Option` / `Bool` exactly where the C++ returns
  a null pointer / `false`.
-/

namespace CompHack

/-! ## Association-list primitives

Model of the keyed `std::unordered_map` accessors generated for the data
objects: `getKey?` is `find`, `setKey` is `operator[]=` (replace in place,
append when absent), `removeKey` is `erase`, `keyExists` is `...KeyExists`. -/

def getKey? {α : Type} (m : List (Nat × α)) (k : Nat) : Option α :=
  (m.find? (fun p => p.1 = k)).map Prod.snd

def keyExists {α : Type} (m : List (Nat × α)) (k : Nat) : Bool :=
  (getKey? m k).isSome

def setKey {α : Type} (m : List (Nat × α)) (k : Nat) (v : α) : List (Nat × α) :=
  if m.any (fun p => p.1 = k) then
    m.map (fun p => if p.1 = k then (k, v) else p)
  else
    m ++ [(k, v)]

def removeKey {α : Type} (m : List (Nat × α)) (k : Nat) : List (Nat × α) :=
  m.filter (fun p => p.1 ≠ k)

/-! ## Actions (`objects::Action` and subclasses) -/

/-- Model of `objects::Action::SourceContext_t`. The validator only ever
distinguishes ENEMIES and SOURCE from the rest; `OTHER` stands for every
remaining enumerator. -/
inductive SourceContext : Type
  | ENEMIES
  | SOURCE
  | OTHER
  deriving DecidableEq, Repr

/-- Model of `objects::ActionZoneInstance::Mode_t`. `OTHER` stands for every
mode other than the four join modes the validator warns about. -/
inductive ZoneInstanceMode : Type
  | JOIN
  | CLAN_JOIN
  | TEAM_JOIN
  | TEAM_PVP
  | OTHER
  deriving DecidableEq, Repr

/-- Model of `objects::Action::ActionType_t` restricted to the action kinds
that carry no payload the validator reads (every kind except ZONE_CHANGE,
ZONE_INSTANCE, DELAY and SPAWN, which become dedicated constructors of
`Action`). -/
inductive ActionType : Type
  | ADD_REMOVE_ITEMS
  | DISPLAY_MESSAGE
  | GRANT_SKILLS
  | GRANT_XP
  | PLAY_BGM
  | PLAY_SOUND_EFFECT
  | SET_HOMEPOINT
  | SPECIAL_DIRECTION
  | STAGE_EFFECT
  | UPDATE_COMP
  | UPDATE_FLAG
  | UPDATE_LNC
  | UPDATE_QUEST
  | ADD_REMOVE_STATUS
  | CREATE_LOOT
  | RUN_SCRIPT
  | SET_NPC_STATE
  | START_EVENT
  | UPDATE_POINTS
  | UPDATE_ZONE_FLAGS
  deriving DecidableEq, Repr

/-- Model of the `objects::Action` class hierarchy, keeping exactly the data
`ServerDataManager::ValidateActions` reads: the source context, and for the
four downcast subclasses their zone ID / mode / nested action lists. -/
inductive Action : Type
  | zoneChange (sourceContext : SourceContext) (zoneID : Nat)
  | zoneInstance (sourceContext : SourceContext) (mode : ZoneInstanceMode)
  | delay (sourceContext : SourceContext) (actions : List Action)
  | spawn (sourceContext : SourceContext) (defeatActions : List Action)
  | basic (sourceContext : SourceContext) (actionType : ActionType)

/-- `Action::GetSourceContext`. -/
def Action.sourceContext : Action → SourceContext
  | .zoneChange c _ => c
  | .zoneInstance c _ => c
  | .delay c _ => c
  | .spawn c _ => c
  | .basic c _ => c

/-- The test `GetSourceContext() == ENEMIES || GetSourceContext() == SOURCE`
from ServerDataManager.cpp line 1627. -/
def isAutoSourceContext (c : SourceContext) : Bool :=
  match c with
  | .ENEMIES => true
  | .SOURCE => true
  | .OTHER => false

/-- The `warn` switch of `ValidateActions` (lines 1583-1615): a ZONE_CHANGE
action with a non-zero zone ID, or a ZONE_INSTANCE action whose mode is
JOIN / CLAN_JOIN / TEAM_JOIN / TEAM_PVP. -/
def midSetWarning (a : Action) : Bool :=
  match a with
  | .zoneChange _ zoneID => decide (zoneID ≠ 0)
  | .zoneInstance _ mode =>
    match mode with
    | .JOIN => true
    | .CLAN_JOIN => true
    | .TEAM_JOIN => true
    | .TEAM_PVP => true
    | .OTHER => false
  | _ => false

/-- The context-restricted action kinds of the big switch in `ValidateActions`
(lines 1655-1669) that are modelled by `Action.basic` (ZONE_CHANGE and
ZONE_INSTANCE, the other two members of that case list, are dedicated
constructors and handled directly in `ValidateActions`). -/
def restrictedType (t : ActionType) : Bool :=
  match t with
  | .ADD_REMOVE_ITEMS => true
  | .DISPLAY_MESSAGE => true
  | .GRANT_SKILLS => true
  | .GRANT_XP => true
  | .PLAY_BGM => true
  | .PLAY_SOUND_EFFECT => true
  | .SET_HOMEPOINT => true
  | .SPECIAL_DIRECTION => true
  | .STAGE_EFFECT => true
  | .UPDATE_COMP => true
  | .UPDATE_FLAG => true
  | .UPDATE_LNC => true
  | .UPDATE_QUEST => true
  | _ => false

/-- Model of `ServerDataManager::ValidateActions` (lines 1571-1692).
Returns the C++ boolean result paired with the number of `LOG_WARNING`
messages emitted (the mid-set zone-change warning is the only warning in the
function).  `current != count` in the C++ loop is exactly "the remaining list
is non-empty"; the recursive calls for DELAY and SPAWN pass the recomputed
`autoCtx` and leave `inEvent` at its default `false`. -/
def ValidateActions : List Action → Bool → Bool → Bool × Nat
  | [], _, _ => (true, 0)
  | a :: rest, autoContext, inEvent =>
    let warn : Nat := if !rest.isEmpty && !inEvent && midSetWarning a then 1 else 0
    let autoCtx := autoContext && isAutoSourceContext a.sourceContext
    match a with
    | .delay _ sub =>
      let r := ValidateActions sub autoCtx false
      if r.1 then
        let r2 := ValidateActions rest autoContext inEvent
        (r2.1, warn + r.2 + r2.2)
      else
        (false, warn + r.2)
    | .spawn _ sub =>
      let r := ValidateActions sub autoCtx false
      if r.1 then
        let r2 := ValidateActions rest autoContext inEvent
        (r2.1, warn + r.2 + r2.2)
      else
        (false, warn + r.2)
    | .zoneChange _ _ =>
      if autoCtx then (false, warn)
      else
        let r2 := ValidateActions rest autoContext inEvent
        (r2.1, warn + r2.2)
    | .zoneInstance _ _ =>
      if autoCtx then (false, warn)
      else
        let r2 := ValidateActions rest autoContext inEvent
        (r2.1, warn + r2.2)
    | .basic _ t =>
      if restrictedType t && autoCtx then (false, warn)
      else
        let r2 := ValidateActions rest autoContext inEvent
        (r2.1, warn + r2.2)

/-- A reachable context violation as claim C3 words it: some action in the
list (descending through DELAY action lists and SPAWN defeat-action lists)
has a context-restricted type while its effective auto context — the caller's
flag AND its own source context being ENEMIES or SOURCE — is true. -/
def existsViolation : List Action → Bool → Bool
  | [], _ => false
  | a :: rest, autoContext =>
    let autoCtx := autoContext && isAutoSourceContext a.sourceContext
    (match a with
     | .delay _ sub => existsViolation sub autoCtx
     | .spawn _ sub => existsViolation sub autoCtx
     | .zoneChange _ _ => autoCtx
     | .zoneInstance _ _ => autoCtx
     | .basic _ t => restrictedType t && autoCtx) ||
    existsViolation rest autoContext

/-- Model of `objects::ServerZoneTrigger::Trigger_t`.  `OTHER` stands for
every trigger kind beyond the eight the classifier singles out. -/
inductive TriggerKind : Type
  | ON_DEATH
  | ON_DIASPORA_BASE_CAPTURE
  | ON_FLAG_SET
  | ON_PVP_BASE_CAPTURE
  | ON_PVP_COMPLETE
  | ON_REVIVAL
  | ON_ZONE_IN
  | ON_ZONE_OUT
  | OTHER
  deriving DecidableEq, Repr

/-- Claim-side predicate: the action kinds owning a nested action list the
validator recurses into (DELAY and SPAWN). -/
def Action.ownsNestedActions : Action → Bool
  | .delay _ _ => true
  | .spawn _ _ => true
  | _ => false

/-- Model of `objects::ServerZoneTrigger`: the trigger kind plus its action
list. -/
structure ServerZoneTrigger : Type where
  trigger : TriggerKind
  actions : List Action

/-- Model of `ServerDataManager::TriggerIsAutoContext` (lines 1694-1712). -/
def TriggerIsAutoContext (t : ServerZoneTrigger) : Bool :=
  match t.trigger with
  | .ON_DEATH => false
  | .ON_DIASPORA_BASE_CAPTURE => false
  | .ON_FLAG_SET => false
  | .ON_PVP_BASE_CAPTURE => false
  | .ON_PVP_COMPLETE => false
  | .ON_REVIVAL => false
  | .ON_ZONE_IN => false
  | .ON_ZONE_OUT => false
  | .OTHER => true

/-! ## Zone content objects -/

/-- Model of `objects::ServerNPC`: the fields `ApplyZonePartial` and the
loaders read (content ID, optional spot ID, float coordinates, actions). -/
structure ServerNPC : Type where
  id : Nat
  spotID : Nat
  x : ℚ
  y : ℚ
  actions : List Action

/-- Model of `objects::ServerObject` (same shape as `ServerNPC`; the merge
code handles the two lists with separate but identical procedures). -/
structure ServerObject : Type where
  id : Nat
  spotID : Nat
  x : ℚ
  y : ℚ
  actions : List Action

/-- Model of `objects::Spawn::Category_t` as far as the loaders test it. -/
inductive SpawnCategory : Type
  | NORMAL
  | BOSS
  deriving DecidableEq, Repr

/-- Model of `objects::Spawn`: the fields the load-time checks read. -/
structure Spawn : Type where
  enemyType : Nat
  bossGroup : Nat
  category : SpawnCategory
  deriving DecidableEq, Repr

/-- Model of `objects::SpawnGroup`: a keyed map from spawn ID to count plus
the two validated action lists. -/
structure SpawnGroup : Type where
  spawns : List (Nat × Nat)
  defeatActions : List Action
  spawnActions : List Action

/-- Model of `objects::SpawnLocationGroup`: the referenced spawn-group IDs. -/
structure SpawnLocationGroup : Type where
  groupIDs : List Nat

/-- Model of `objects::ServerZoneSpot`: its two validated action lists (the
geometry is never read by the modelled code). -/
structure ServerZoneSpot : Type where
  actions : List Action
  leaveActions : List Action

/-- Model of `objects::PlasmaSpawn`: its two validated action lists. -/
structure PlasmaSpawn : Type where
  successActions : List Action
  failActions : List Action

/-- Model of `objects::ServerZone`: the fields `GetZoneData`,
`ApplyZonePartial` and `LoadObject<ServerZone>` read or write. -/
structure ServerZone : Type where
  id : Nat
  dynamicMapID : Nat
  npcs : List ServerNPC
  objects : List ServerObject
  spawns : List (Nat × Spawn)
  spawnGroups : List (Nat × SpawnGroup)
  spawnLocationGroups : List (Nat × SpawnLocationGroup)
  spots : List (Nat × ServerZoneSpot)
  plasmaSpawns : List (Nat × PlasmaSpawn)
  triggers : List ServerZoneTrigger
  dropSetIDs : Finset ℕ
  skillWhitelist : Finset ℕ
  skillBlacklist : Finset ℕ

/-- Model of `objects::ServerZonePartial`: the zone-shaped patch content plus
the auto-apply flag and the dynamic-map scope set. -/
structure ServerZonePartial : Type where
  id : Nat
  autoApply : Bool
  dynamicMapIDs : Finset ℕ
  npcs : List ServerNPC
  objects : List ServerObject
  spawns : List (Nat × Spawn)
  spawnGroups : List (Nat × SpawnGroup)
  spawnLocationGroups : List (Nat × SpawnLocationGroup)
  spots : List (Nat × ServerZoneSpot)
  triggers : List ServerZoneTrigger
  dropSetIDs : Finset ℕ
  skillWhitelist : Finset ℕ
  skillBlacklist : Finset ℕ

/-- Model of `objects::ServerZoneInstance`: the fields the loader and
`ExistsInInstance` read. -/
structure ServerZoneInstance : Type where
  id : Nat
  lobbyID : Nat
  zoneIDs : List Nat
  dynamicMapIDs : List Nat
  deriving DecidableEq, Repr

/-- The one field of the client zone definition (`objects::MiZoneData`) the
modelled code reads: `GetBasic()->GetType()`. -/
structure MiZoneData : Type where
  basicType : Nat
  deriving DecidableEq, Repr

/-- Model of the `DefinitionManager` collaborator as far as the modelled
loaders consult it: zone definitions by ID and whether devil data exists for
an enemy type. -/
structure DefinitionManager : Type where
  zoneData : Nat → Option MiZoneData
  devilData : Nat → Bool

/-- Model of the `ServerDataManager` state: the member maps the modelled
methods touch. -/
structure ServerDataManager : Type where
  zoneData : List (Nat × List (Nat × ServerZone))
  fieldZoneIDs : List (Nat × Nat)
  zoneInstanceData : List (Nat × ServerZoneInstance)
  zonePartialData : List (Nat × ServerZonePartial)
  zonePartialMap : List (Nat × Finset ℕ)

/-- Model of `ServerDataManager::GetZonePartialData`. -/
def GetZonePartialData (s : ServerDataManager) (id : Nat) : Option ServerZonePartial :=
  getKey? s.zonePartialData id

/-- The base-zone lookup of `GetZoneData` (lines 89-102): two-level map, with
a `dynamicMapID` of zero returning the first entry. -/
def zoneLookup (s : ServerDataManager) (id dynamicMapID : Nat) : Option ServerZone :=
  match getKey? s.zoneData id with
  | none => none
  | some inner =>
    if dynamicMapID ≠ 0 then getKey? inner dynamicMapID
    else inner.head?.map Prod.snd

/-! ## Zone composition (`ApplyZonePartial`, lines 590-696) -/

/-- The NPC conflict predicate of the static `ApplyZonePartial` (lines
621-629): same non-zero spot ID, or both spot-free and within 10 units on
each axis. -/
def npcConflict (npc oNPC : ServerNPC) : Bool :=
  decide ((npc.spotID ≠ 0 ∧ oNPC.spotID = npc.spotID) ∨
    (npc.spotID = 0 ∧ oNPC.spotID = 0 ∧
      |oNPC.x - npc.x| < 10 ∧ |oNPC.y - npc.y| < 10))

/-- The object conflict predicate of the static `ApplyZonePartial` (lines
648-656), identical in form to `npcConflict`. -/
def objConflict (obj oObj : ServerObject) : Bool :=
  decide ((obj.spotID ≠ 0 ∧ oObj.spotID = obj.spotID) ∨
    (obj.spotID = 0 ∧ oObj.spotID = 0 ∧
      |oObj.x - obj.x| < 10 ∧ |oObj.y - obj.y| < 10))

/-- Model of the static `ServerDataManager::ApplyZonePartial(zone, partial,
positionReplace)` (lines 590-696): set-unions for drop sets and skill lists,
conflict-replacement appends for NPCs and objects (entries with ID 0 are pure
deletes), keyed overwrite for spawns, spawn groups, spawn location groups and
spots, and verbatim append for triggers. -/
def ApplyZonePartialStatic (zone : ServerZone) (prt : ServerZonePartial)
    (positionReplace : Bool) : ServerZone :=
  let npcs := List.foldl (fun acc npc =>
    let acc := if positionReplace then acc.filter (fun oNPC => !npcConflict npc oNPC) else acc
    if npc.id ≠ 0 then acc ++ [npc] else acc) zone.npcs prt.npcs
  let objs := List.foldl (fun acc obj =>
    let acc := if positionReplace then acc.filter (fun oObj => !objConflict obj oObj) else acc
    if obj.id ≠ 0 then acc ++ [obj] else acc) zone.objects prt.objects
  { zone with
    dropSetIDs := zone.dropSetIDs ∪ prt.dropSetIDs,
    skillWhitelist := zone.skillWhitelist ∪ prt.skillWhitelist,
    skillBlacklist := zone.skillBlacklist ∪ prt.skillBlacklist,
    npcs := npcs,
    objects := objs,
    spawns := List.foldl (fun m p => setKey m p.1 p.2) zone.spawns prt.spawns,
    spawnGroups := List.foldl (fun m p => setKey m p.1 p.2) zone.spawnGroups prt.spawnGroups,
    spawnLocationGroups :=
      List.foldl (fun m p => setKey m p.1 p.2) zone.spawnLocationGroups prt.spawnLocationGroups,
    spots := List.foldl (fun m p => setKey m p.1 p.2) zone.spots prt.spots,
    triggers := zone.triggers ++ prt.triggers }

/-- Field update used by the repair pass: `zone->SetSpawnGroups(key, sg)`. -/
def setSpawnGroups (z : ServerZone) (k : Nat) (sg : SpawnGroup) : ServerZone :=
  { z with spawnGroups := setKey z.spawnGroups k sg }

/-- Field update used by the repair pass: `zone->RemoveSpawnGroups(key)`. -/
def removeSpawnGroups (z : ServerZone) (k : Nat) : ServerZone :=
  { z with spawnGroups := removeKey z.spawnGroups k }

/-- Field update used by the repair pass: `zone->SetSpawnLocationGroups`. -/
def setSpawnLocationGroups (z : ServerZone) (k : Nat) (slg : SpawnLocationGroup) : ServerZone :=
  { z with spawnLocationGroups := setKey z.spawnLocationGroups k slg }

/-- Field update used by the repair pass: `zone->RemoveSpawnLocationGroups`. -/
def removeSpawnLocationGroups (z : ServerZone) (k : Nat) : ServerZone :=
  { z with spawnLocationGroups := removeKey z.spawnLocationGroups k }

/-- `sg->RemoveSpawns(id)` on a spawn group. -/
def SpawnGroup.removeSpawns (sg : SpawnGroup) (k : Nat) : SpawnGroup :=
  { sg with spawns := removeKey sg.spawns k }

/-- `slg->RemoveGroupIDs(id)` on a spawn location group. -/
def SpawnLocationGroup.removeGroupIDs (slg : SpawnLocationGroup) (k : Nat) : SpawnLocationGroup :=
  { slg with groupIDs := slg.groupIDs.filter (fun g => g ≠ k) }

/-- The spawn-information repair pass of `GetZoneData` (lines 144-225),
modelled statement for statement.  The first fold is the SpawnGroup loop: it
accumulates `sgRemoves` (groups whose referenced spawns are all missing) and,
for a group with only some spawns missing, copies the group and calls
`RemoveSpawns` for each member of `sgRemoves` gathered so far — exactly what
the C++ does, even though the set it strips is not the set of missing spawn
IDs.  The second fold is the SpawnLocationGroup loop, which strips
`sgRemoves` from partially-dangling location groups and deletes
fully-dangling ones. -/
def repairSpawnInfo (z : ServerZone) : ServerZone :=
  let p1 := List.foldl (fun (acc : ServerZone × List Nat) sgPair =>
    let missing := (sgPair.2.spawns.map Prod.fst).filter
      (fun k => !keyExists acc.1.spawns k)
    if missing.length > 0 then
      if missing.length < sgPair.2.spawns.length then
        let sg := List.foldl (fun g r => g.removeSpawns r) sgPair.2 acc.2
        (setSpawnGroups acc.1 sgPair.1 sg, acc.2)
      else
        (acc.1, acc.2 ++ [sgPair.1])
    else acc) (z, []) z.spawnGroups
  let z1 := List.foldl (fun zc r => removeSpawnGroups zc r) p1.1 p1.2
  let p2 := List.foldl (fun (acc : ServerZone × List Nat) slgPair =>
    let missing := slgPair.2.groupIDs.filter
      (fun g => !keyExists acc.1.spawnGroups g)
    if missing.length > 0 then
      if missing.length < slgPair.2.groupIDs.length then
        let slg := List.foldl (fun g r => g.removeGroupIDs r) slgPair.2 p1.2
        (setSpawnLocationGroups acc.1 slgPair.1 slg, acc.2)
      else
        (acc.1, acc.2 ++ [slgPair.1])
    else acc) (z1, []) z1.spawnLocationGroups
  List.foldl (fun zc r => removeSpawnLocationGroups zc r) p2.1 p2.2

/-- The per-extra-ID eligibility test of `GetZoneData` (lines 118-124): the
ID resolves to a stored partial that is not auto-apply and is either unscoped
or scoped to the zone's dynamic map ID. -/
def extraEligible (s : ServerDataManager) (zone : ServerZone) (partialID : Nat) : Bool :=
  match GetZonePartialData s partialID with
  | some prt =>
    !prt.autoApply &&
      (decide (prt.dynamicMapIDs.card = 0) || decide (zone.dynamicMapID ∈ prt.dynamicMapIDs))
  | none => false

/-- The partial-ID set `GetZoneData` assembles (lines 106-125): the
auto-apply partials mapped to the zone's dynamic map ID, union the eligible
caller-supplied extras. -/
def gatherPartialIDs (s : ServerDataManager) (zone : ServerZone)
    (extraPartialIDs : Finset ℕ) : Finset ℕ :=
  ((getKey? s.zonePartialMap zone.dynamicMapID).getD ∅) ∪
    extraPartialIDs.filter (fun partialID => extraEligible s zone partialID = true)

/-- The apply loop of `GetZoneData` (lines 135-142) together with the member
`ApplyZonePartial(zone, partialID)` overload it calls (lines 557-588): a zero
or unresolvable partial ID aborts with no zone (`return nullptr`), otherwise
the partial is merged with `positionReplace` true.  The overload's
self-application guard (`originDef == zone`, a pointer-identity test) can
never fire on this path because the zone passed in is the freshly copied
clone, so the value-level model omits it. -/
def applyAllZonePartials (s : ServerDataManager) :
    ServerZone → List Nat → Option ServerZone
  | zone, [] => some zone
  | zone, partialID :: rest =>
    if partialID = 0 then none
    else
      match GetZonePartialData s partialID with
      | none => none
      | some prt => applyAllZonePartials s (ApplyZonePartialStatic zone prt true) rest

/-- Model of `ServerDataManager::GetZoneData` (lines 83-230): look up the
base zone; when applying partials, gather the applicable partial IDs, and if
any exist, copy the base, apply each partial in ascending ID order (a ranged
`for` over a `std::set<uint32_t>`), then run the spawn-information repair
pass.  With no applicable partials the stored base is returned as is. -/
def GetZoneData (s : ServerDataManager) (id dynamicMapID : Nat)
    (applyPartials : Bool) (extraPartialIDs : Finset ℕ) : Option ServerZone :=
  match zoneLookup s id dynamicMapID with
  | none => none
  | some zone =>
    if applyPartials then
      let partialIDs := gatherPartialIDs s zone extraPartialIDs
      if partialIDs.card > 0 then
        match applyAllZonePartials s zone (partialIDs.sort (· ≤ ·)) with
        | none => none
        | some z => some (repairSpawnInfo z)
      else some zone
    else some zone

/-! ## Instance queries and loaders -/

/-- Model of `ServerDataManager::ExistsInInstance` (lines 268-285). -/
def ExistsInInstance (s : ServerDataManager) (instanceID zoneID dynamicMapID : Nat) : Bool :=
  match getKey? s.zoneInstanceData instanceID with
  | none => false
  | some inst =>
    (List.range inst.zoneIDs.length).any (fun i =>
      decide (inst.zoneIDs.getD i 0 = zoneID) &&
        (decide (dynamicMapID = 0) || decide (inst.dynamicMapIDs.getD i 0 = dynamicMapID)))

/-- `mZoneData.find(id) != end && mZoneData[id].find(dmID) != end`. -/
def zoneKeyExists (s : ServerDataManager) (id dynamicMapID : Nat) : Bool :=
  match getKey? s.zoneData id with
  | none => false
  | some inner => keyExists inner dynamicMapID

/-- The checks of `LoadObject<objects::ServerZoneInstance>` past the lobby
skip (lines 1091-1122): fail on a zone/dynamic-map length mismatch, on a
pair that is not a registered zone, or on a duplicate instance ID; otherwise
register the instance. -/
def loadZoneInstanceBody (s : ServerDataManager) (inst : ServerZoneInstance) :
    ServerDataManager × Bool :=
  if inst.zoneIDs.length ≠ inst.dynamicMapIDs.length then
    (s, false)
  else if !(List.range inst.zoneIDs.length).all (fun i =>
      zoneKeyExists s (inst.zoneIDs.getD i 0) (inst.dynamicMapIDs.getD i 0)) then
    (s, false)
  else if keyExists s.zoneInstanceData inst.id then
    (s, false)
  else
    ({ s with zoneInstanceData := setKey s.zoneInstanceData inst.id inst }, true)

/-- Model of `LoadObject<objects::ServerZoneInstance>` (lines 1073-1123)
after the XML parse: skip (successfully) when a definition manager is present
and does not know the lobby zone, otherwise run the checks and register. -/
def loadZoneInstanceObject (dm : Option DefinitionManager) (s : ServerDataManager)
    (inst : ServerZoneInstance) : ServerDataManager × Bool :=
  if (match dm with
      | some d => (d.zoneData inst.lobbyID).isNone
      | none => false) then
    (s, true)
  else loadZoneInstanceBody s inst

/-- The registration step of `LoadObject<objects::ServerZone>` (lines
847-853): store under both keys and remember field zones. -/
def registerZone (s : ServerDataManager) (zone : ServerZone) (isField : Bool) :
    ServerDataManager :=
  let inner := (getKey? s.zoneData zone.id).getD []
  { s with
    zoneData := setKey s.zoneData zone.id (setKey inner zone.dynamicMapID zone),
    fieldZoneIDs :=
      if isField then s.fieldZoneIDs ++ [(zone.id, zone.dynamicMapID)]
      else s.fieldZoneIDs }

/-- The per-spawn validity test of `LoadObject<objects::ServerZone>` (lines
787-806): devil data exists for the enemy type, and a non-zero boss group
forces the BOSS category. -/
def spawnValid (d : DefinitionManager) (sp : Spawn) : Bool :=
  d.devilData sp.enemyType &&
    (decide (sp.bossGroup = 0) || decide (sp.category = SpawnCategory.BOSS))

/-- The per-spawn-group check of `LoadObject<objects::ServerZone>` (lines
809-831): every referenced spawn ID exists in the zone and the defeat and
spawn action lists validate. -/
def spawnGroupValid (zone : ServerZone) (sg : SpawnGroup) : Bool :=
  (sg.spawns.map Prod.fst).all (fun k => keyExists zone.spawns k) &&
    (ValidateActions sg.defeatActions false false).1 &&
    (ValidateActions sg.spawnActions false false).1

/-- The body of `LoadObject<objects::ServerZone>` (lines 746-907) once the
definition-manager zone lookup has been resolved into `isField`: duplicate
check, spawn checks, spawn-group and spawn-location-group checks, then
registration, then validation of the NPC, object, plasma, spot and trigger
action lists.  Note that the zone is registered *before* those last
validations run, so a zone that fails them stays in the store. -/
def loadZoneObjectBody (dm : Option DefinitionManager) (isField : Bool)
    (s : ServerDataManager) (zone : ServerZone) : ServerDataManager × Bool :=
  if zoneKeyExists s zone.id zone.dynamicMapID then (s, false)
  else if !(match dm with
      | some d => (zone.spawns.map Prod.snd).all (fun sp => spawnValid d sp)
      | none => true) then (s, false)
  else if !(zone.spawnGroups.map Prod.snd).all (fun sg => spawnGroupValid zone sg) then
    (s, false)
  else if !(zone.spawnLocationGroups.map Prod.snd).all (fun slg =>
      slg.groupIDs.all (fun g => keyExists zone.spawnGroups g)) then
    (s, false)
  else
    let s2 := registerZone s zone isField
    let ok :=
      zone.npcs.all (fun n => (ValidateActions n.actions false false).1) &&
      zone.objects.all (fun o => (ValidateActions o.actions false false).1) &&
      (zone.plasmaSpawns.map Prod.snd).all (fun p =>
        (ValidateActions p.successActions false false).1 &&
        (ValidateActions p.failActions false false).1) &&
      (zone.spots.map Prod.snd).all (fun sp =>
        (ValidateActions sp.actions false false).1 &&
        (ValidateActions sp.leaveActions false false).1) &&
      zone.triggers.all (fun t =>
        (ValidateActions t.actions (TriggerIsAutoContext t) false).1)
    (s2, ok)

/-- Model of `LoadObject<objects::ServerZone>` (lines 746-907) after the XML
parse: resolve the definition manager's zone lookup (unknown zones are
skipped successfully; the basic type classifies field zones), then run the
body. -/
def loadZoneObject (dm : Option DefinitionManager) (s : ServerDataManager)
    (zone : ServerZone) : ServerDataManager × Bool :=
  match dm with
  | some d =>
    match d.zoneData zone.id with
    | none => (s, true)
    | some def0 => loadZoneObjectBody dm (decide (def0.basicType = 2)) s zone
  | none => loadZoneObjectBody dm false s zone

/-- The object loop of `LoadObjectsFromFile<objects::ServerZone>`
(ServerDataManager.h lines 414-424): load each object in order, stopping
with failure at the first object that fails; state already registered is
kept. -/
def loadZoneObjects (dm : Option DefinitionManager) (s : ServerDataManager) :
    List ServerZone → ServerDataManager × Bool
  | [] => (s, true)
  | z :: rest =>
    let r := loadZoneObject dm s z
    if r.2 then loadZoneObjects dm r.1 rest
    else (r.1, false)

/-! ## Claim-side specification definitions -/

/-- Claim-side conflict notion for placements, exactly as claim C2 words it:
both entries have the same non-zero spot ID, or both have spot ID zero and
their X coordinates differ by less than 10.0 and their Y coordinates differ
by less than 10.0. -/
def specPlacementConflict (spotA spotB : Nat) (xA yA xB yB : ℚ) : Prop :=
  (spotA = spotB ∧ spotA ≠ 0) ∨
    (spotA = 0 ∧ spotB = 0 ∧ |xA - xB| < 10 ∧ |yA - yB| < 10)

instance specPlacementConflictDecidable (a b : Nat) (xA yA xB yB : ℚ) :
    Decidable (specPlacementConflict a b xA yA xB yB) := by
  unfold specPlacementConflict
  infer_instance

/-- Claim-side merge procedure applied identically to the NPC and object
lists: before appending each incoming entry, remove every existing entry
that conflicts with it; an entry whose own ID is 0 is never appended. -/
def mergePlacements {α : Type} (conflict : α → α → Bool) (getID : α → Nat)
    (base add : List α) : List α :=
  List.foldl (fun acc e =>
    acc.filter (fun o => !conflict e o) ++ (if getID e ≠ 0 then [e] else [])) base add

/-! ## Concrete fixtures for witnesses and counterexamples -/

/-- A freshly constructed manager with nothing loaded. -/
def emptyManager : ServerDataManager := ⟨[], [], [], [], []⟩

/-- A minimal spawn entry. -/
def exSpawn : Spawn := ⟨100, 0, .NORMAL⟩

/-- A spawn group referencing spawn IDs 1, 2 and 3. -/
def exGroup : SpawnGroup := ⟨[(1, 1), (2, 1), (3, 1)], [], []⟩

/-- A base zone (1, 1) whose spawn map holds IDs 1 and 3 only. -/
def exZone : ServerZone := ⟨1, 1, [], [], [(1, exSpawn), (3, exSpawn)], [], [], [], [], [], ∅, ∅, ∅⟩

/-- A non-auto, unscoped partial (ID 5) that installs spawn group 10
referencing spawns {1, 2, 3}. -/
def exPartial : ServerZonePartial := ⟨5, false, ∅, [], [], [], [(10, exGroup)], [], [], [], ∅, ∅, ∅⟩

/-- A store holding `exZone` and `exPartial` and nothing else. -/
def exStore : ServerDataManager := ⟨[(1, [(1, exZone)])], [], [], [(5, exPartial)], []⟩

/-- A spot payload with no actions. -/
def exSpotA : ServerZoneSpot := ⟨[], []⟩

/-- A second, distinguishable spot payload. -/
def exSpotB : ServerZoneSpot := ⟨[Action.basic .OTHER .START_EVENT], []⟩

/-- A non-auto, unscoped partial (ID 5) writing `exSpotA` at spot key 2. -/
def exPartial5 : ServerZonePartial := ⟨5, false, ∅, [], [], [], [], [], [(2, exSpotA)], [], ∅, ∅, ∅⟩

/-- A non-auto, unscoped partial (ID 7) writing `exSpotB` at the same spot
key 2. -/
def exPartial7 : ServerZonePartial := ⟨7, false, ∅, [], [], [], [], [], [(2, exSpotB)], [], ∅, ∅, ∅⟩

/-- A store holding `exZone` and the two spot-overwriting partials 5 and 7. -/
def exStoreSpots : ServerDataManager :=
  ⟨[(1, [(1, exZone)])], [], [], [(5, exPartial5), (7, exPartial7)], []⟩

/-- An empty, well-formed zone (2, 2). -/
def exZoneOK : ServerZone := ⟨2, 2, [], [], [], [], [], [], [], [], ∅, ∅, ∅⟩

/-- A zone (3, 3) whose spawn location group 1 references the nonexistent
spawn group 99, so its load fails. -/
def exZoneBadSLG : ServerZone := ⟨3, 3, [], [], [], [], [(1, ⟨[99]⟩)], [], [], [], ∅, ∅, ∅⟩

/-- A definition manager that knows no zones at all. -/
def exDMUnknown : DefinitionManager := ⟨fun _ => none, fun _ => true⟩

/-- A zone instance whose parallel arrays disagree in length (3 zone IDs,
2 dynamic map IDs) and whose lobby is unknown to `exDMUnknown`. -/
def exInstMismatch : ServerZoneInstance := ⟨3, 7, [1, 2, 3], [1, 2]⟩

/-- A well-formed zone instance over the zone (1, 1) of `exStore`. -/
def exInstOK : ServerZoneInstance := ⟨4, 9, [1], [1]⟩

/-! ## Lemmas about the action validator -/

/-- Helper Bool fact used to discharge the residual cases of
`validate_fst_eq`. -/
theorem bool_imp_or (b c : Bool) (h : b = true → c = false) : b = false ∨ c = false := by
  cases b
  · exact Or.inl rfl
  · exact Or.inr (h rfl)

/-- Helper Bool fact used to discharge the residual cases of
`validate_fst_eq`. -/
theorem bool_imp_or3 (r b c : Bool) (h : r = true → b = true → c = false) :
    r = false ∨ b = false ∨ c = false := by
  cases r
  · exact Or.inl rfl
  · cases b
    · exact Or.inr (Or.inl rfl)
    · exact Or.inr (Or.inr (h rfl rfl))

/-- Core characterisation: the boolean result of `ValidateActions` is the
negation of `existsViolation`, for every `inEvent` flag. -/
theorem validate_fst_eq (l : List Action) (autoContext inEvent : Bool) :
    (ValidateActions l autoContext inEvent).1 = !existsViolation l autoContext := by
  induction l, autoContext, inEvent using ValidateActions.induct
  all_goals simp only [ValidateActions, existsViolation]
  all_goals try unfold_let at *
  all_goals try simp_all
  all_goals split <;> simp_all
  all_goals intro _
  all_goals first
  | exact bool_imp_or _ _ (by assumption)
  | exact bool_imp_or3 _ _ _ (by assumption)

/-- A restricted basic action under an auto context fails validation at once,
with nothing after it processed (no warning from the rest is counted). -/
theorem validate_basic_violation (ctx : SourceContext) (t : ActionType)
    (rest : List Action) (hr : restrictedType t = true)
    (hctx : isAutoSourceContext ctx = true) :
    ValidateActions (Action.basic ctx t :: rest) true false = (false, 0) := by
  simp [ValidateActions, midSetWarning, Action.sourceContext, hr, hctx]

/-- A warn-worthy action at a non-last position of a violation-free list makes
`ValidateActions` (with `inEvent` false) count at least one warning. -/
theorem validate_midwarn_count (pre : List Action) (w : Action) (post : List Action)
    (auto : Bool) (hw : midSetWarning w = true) (hpost : post ≠ [])
    (hnv : existsViolation (pre ++ w :: post) auto = false) :
    1 ≤ (ValidateActions (pre ++ w :: post) auto false).2 := by
  induction pre with
  | nil =>
    simp only [List.nil_append] at hnv ⊢
    cases w with
    | zoneChange ctx zid =>
      simp only [existsViolation, Action.sourceContext, Bool.or_eq_false_iff] at hnv
      simp only [ValidateActions, Action.sourceContext, hnv.1, hw,
        List.isEmpty_eq_false.mpr hpost]
      split <;> simp
    | zoneInstance ctx mode =>
      simp only [existsViolation, Action.sourceContext, Bool.or_eq_false_iff] at hnv
      simp only [ValidateActions, Action.sourceContext, hnv.1, hw,
        List.isEmpty_eq_false.mpr hpost]
      split <;> simp
    | delay ctx sub => exact Bool.noConfusion hw
    | spawn ctx sub => exact Bool.noConfusion hw
    | basic ctx t => exact Bool.noConfusion hw
  | cons a pre ih =>
    simp only [List.cons_append] at hnv ⊢
    cases a with
    | delay ctx sub =>
      simp only [existsViolation, Action.sourceContext, Bool.or_eq_false_iff] at hnv
      have htail := ih hnv.2
      have hsub : (ValidateActions sub (auto && isAutoSourceContext ctx) false).1 = true := by
        rw [validate_fst_eq, hnv.1, Bool.not_false]
      simp only [ValidateActions, Action.sourceContext, hsub, if_true]
      omega
    | spawn ctx sub =>
      simp only [existsViolation, Action.sourceContext, Bool.or_eq_false_iff] at hnv
      have htail := ih hnv.2
      have hsub : (ValidateActions sub (auto && isAutoSourceContext ctx) false).1 = true := by
        rw [validate_fst_eq, hnv.1, Bool.not_false]
      simp only [ValidateActions, Action.sourceContext, hsub, if_true]
      omega
    | zoneChange ctx zid =>
      simp only [existsViolation, Action.sourceContext, Bool.or_eq_false_iff] at hnv
      have htail := ih hnv.2
      simp only [ValidateActions, Action.sourceContext]
      split <;> simp_all <;> omega
    | zoneInstance ctx mode =>
      simp only [existsViolation, Action.sourceContext, Bool.or_eq_false_iff] at hnv
      have htail := ih hnv.2
      simp only [ValidateActions, Action.sourceContext]
      split <;> simp_all <;> omega
    | basic ctx t =>
      simp only [existsViolation, Action.sourceContext, Bool.or_eq_false_iff] at hnv
      have htail := ih hnv.2
      simp only [ValidateActions, Action.sourceContext]
      split <;> simp_all <;> omega

/-- With `inEvent` true, a list without DELAY / SPAWN members emits no
warnings at all: the mid-set warning is suppressed at the top level. -/
theorem validate_inEvent_no_warnings (acts : List Action) (auto : Bool)
    (h : acts.all (fun a => !a.ownsNestedActions) = true) :
    (ValidateActions acts auto true).2 = 0 := by
  induction acts generalizing auto with
  | nil => simp [ValidateActions]
  | cons a rest ih =>
    simp only [List.all_cons, Bool.and_eq_true] at h
    cases a with
    | delay ctx sub => simp [Action.ownsNestedActions] at h
    | spawn ctx sub => simp [Action.ownsNestedActions] at h
    | zoneChange ctx zid =>
      simp only [ValidateActions, Action.sourceContext]
      split <;> simp [ih auto h.2]
    | zoneInstance ctx mode =>
      simp only [ValidateActions, Action.sourceContext]
      split <;> simp [ih auto h.2]
    | basic ctx t =>
      simp only [ValidateActions, Action.sourceContext]
      split <;> simp [ih auto h.2]

/-- Validating a lone DELAY action is exactly validating its nested list with
the recomputed auto context and `inEvent` reset to false, whatever `inEvent`
the outer call received. -/
theorem validate_delay_singleton (ctx : SourceContext) (sub : List Action) (auto inEvent : Bool) :
    ValidateActions [Action.delay ctx sub] auto inEvent =
      ValidateActions sub (auto && isAutoSourceContext ctx) false := by
  simp only [ValidateActions, Action.sourceContext, List.isEmpty_cons]
  split
  · next h => exact Prod.ext_iff.mpr ⟨h.symm, by simp [ValidateActions]⟩
  · next h => exact Prod.ext_iff.mpr ⟨(Bool.eq_false_iff.mpr h).symm, by simp⟩

/-- Validating a lone SPAWN action is exactly validating its defeat-action
list with the recomputed auto context and `inEvent` reset to false. -/
theorem validate_spawn_singleton (ctx : SourceContext) (sub : List Action) (auto inEvent : Bool) :
    ValidateActions [Action.spawn ctx sub] auto inEvent =
      ValidateActions sub (auto && isAutoSourceContext ctx) false := by
  simp only [ValidateActions, Action.sourceContext, List.isEmpty_cons]
  split
  · next h => exact Prod.ext_iff.mpr ⟨h.symm, by simp [ValidateActions]⟩
  · next h => exact Prod.ext_iff.mpr ⟨(Bool.eq_false_iff.mpr h).symm, by simp⟩

/-- C3: `ValidateActions` returns false (fatal) exactly when some reachable
action — including actions inside nested DELAY action lists and SPAWN
defeat-action lists — has a context-restricted type while its effective auto
context (the caller's `autoContext` flag AND the action's own source context
being ENEMIES or SOURCE) is true; and the check short-circuits, returning
false at the first such violation with nothing after it processed. -/
theorem C3_validate_fatal_iff_violation :
    (∀ (actions : List Action) (autoContext inEvent : Bool),
      (ValidateActions actions autoContext inEvent).1 = false ↔
        existsViolation actions autoContext = true) ∧
    (∀ (ctx : SourceContext) (t : ActionType) (rest : List Action),
      restrictedType t = true → isAutoSourceContext ctx = true →
      ValidateActions (Action.basic ctx t :: rest) true false = (false, 0)) := by
  constructor
  · intro actions autoContext inEvent
    rw [validate_fst_eq]
    simp
  · exact validate_basic_violation

/-- C7: a ZONE_CHANGE action with a non-zero zone ID or a joining
ZONE_INSTANCE action at a non-last position makes `ValidateActions` with
`inEvent` false emit a warning while still returning true when no fatal
violation exists; with `inEvent` true the top-level warning is suppressed
(no warnings are counted for a nesting-free list); and DELAY / SPAWN nested
lists are always validated with `inEvent` false, so the flag is never
propagated into recursive sub-calls. -/
theorem C7_midlist_warning_behaviour :
    (∀ (pre : List Action) (w : Action) (post : List Action) (auto : Bool),
      midSetWarning w = true → post ≠ [] →
      existsViolation (pre ++ w :: post) auto = false →
      (ValidateActions (pre ++ w :: post) auto false).1 = true ∧
        1 ≤ (ValidateActions (pre ++ w :: post) auto false).2) ∧
    (∀ (acts : List Action) (auto : Bool),
      acts.all (fun a => !a.ownsNestedActions) = true →
      (ValidateActions acts auto true).2 = 0) ∧
    (∀ (ctx : SourceContext) (sub : List Action) (auto inEvent : Bool),
      ValidateActions [Action.delay ctx sub] auto inEvent =
        ValidateActions sub (auto && isAutoSourceContext ctx) false) ∧
    (∀ (ctx : SourceContext) (sub : List Action) (auto inEvent : Bool),
      ValidateActions [Action.spawn ctx sub] auto inEvent =
        ValidateActions sub (auto && isAutoSourceContext ctx) false) := by
  refine ⟨fun pre w post auto hw hp hnv =>
      ⟨?_, validate_midwarn_count pre w post auto hw hp hnv⟩,
    validate_inEvent_no_warnings, validate_delay_singleton, validate_spawn_singleton⟩
  rw [validate_fst_eq, hnv, Bool.not_false]

/-- Spec example: `[ZoneChange(id=5), DisplayMessage]` outside an event list
validates with exactly one warning. -/
theorem validate_example_midwarn :
    ValidateActions [Action.zoneChange .OTHER 5, Action.basic .OTHER .DISPLAY_MESSAGE]
      false false = (true, 1) := by
  simp [ValidateActions, midSetWarning, Action.sourceContext, isAutoSourceContext,
    restrictedType]

/-- Spec example: `[GrantXP, ZoneChange]` under an auto context fails
validation. -/
theorem validate_example_violation :
    ValidateActions [Action.basic .ENEMIES .GRANT_XP, Action.zoneChange .OTHER 5]
      true false = (false, 0) := by
  simp [ValidateActions, midSetWarning, Action.sourceContext, isAutoSourceContext,
    restrictedType]

/-! ## Lemmas about the keyed-map primitives -/

/-- Cons-step characterisation of the keyed lookup. -/
theorem getKey?_cons {α : Type} (x : Nat × α) (l : List (Nat × α)) (k : Nat) :
    getKey? (x :: l) k = if x.1 = k then some x.2 else getKey? l k := by
  unfold getKey?
  by_cases hx : x.1 = k
  · rw [List.find?_cons_of_pos _ (by simpa using hx), if_pos hx]
    rfl
  · rw [List.find?_cons_of_neg _ (by simpa using hx), if_neg hx]

/-- In-place replacement stores the new value under an existing key. -/
theorem getKey?_map_set_self {α : Type} (m : List (Nat × α)) (k : Nat) (v : α)
    (h : m.any (fun p => p.1 = k) = true) :
    getKey? (m.map (fun p => if p.1 = k then (k, v) else p)) k = some v := by
  induction m with
  | nil => simp at h
  | cons p rest ih =>
    rw [List.map_cons, getKey?_cons]
    by_cases hp : p.1 = k
    · rw [if_pos hp]
      simp
    · simp only [List.any_cons, Bool.or_eq_true, decide_eq_true_eq] at h
      rcases h with h | h
      · exact absurd h hp
      · rw [if_neg hp]
        simp only [hp, if_false]
        exact ih h

/-- In-place replacement leaves other keys untouched. -/
theorem getKey?_map_set_ne {α : Type} (m : List (Nat × α)) (k k' : Nat) (v : α)
    (h : k' ≠ k) :
    getKey? (m.map (fun p => if p.1 = k' then (k', v) else p)) k = getKey? m k := by
  induction m with
  | nil => rfl
  | cons p rest ih =>
    rw [List.map_cons, getKey?_cons, getKey?_cons]
    by_cases hp : p.1 = k'
    · have hk : p.1 ≠ k := by rw [hp]; exact h
      rw [if_pos hp]
      simp only [h, if_false, hk, if_false]
      exact ih
    · rw [if_neg hp]
      by_cases hk : p.1 = k
      · simp [hk]
      · simp only [hk, if_false]
        exact ih

/-- `setKey` stores the value under its key. -/
theorem getKey?_setKey_self {α : Type} (m : List (Nat × α)) (k : Nat) (v : α) :
    getKey? (setKey m k v) k = some v := by
  unfold setKey
  split
  · next h => exact getKey?_map_set_self m k v h
  · next h =>
    rw [Bool.not_eq_true] at h
    have hnone : m.find? (fun p => decide (p.1 = k)) = none :=
      List.find?_eq_none.mpr (by simpa using List.any_eq_false.mp h)
    simp [getKey?, List.find?_append, hnone]

/-- `setKey` leaves other keys untouched. -/
theorem getKey?_setKey_ne {α : Type} (m : List (Nat × α)) (k k' : Nat) (v : α)
    (h : k' ≠ k) :
    getKey? (setKey m k' v) k = getKey? m k := by
  unfold setKey
  split
  · exact getKey?_map_set_ne m k k' v h
  · simp [getKey?, List.find?_append, h]

/-- `setKey` never deletes an existing key. -/
theorem keyExists_setKey {α : Type} (m : List (Nat × α)) (k k' : Nat) (v : α)
    (h : keyExists m k = true) : keyExists (setKey m k' v) k = true := by
  by_cases hk : k' = k
  · subst hk
    simp [keyExists, getKey?_setKey_self]
  · rw [keyExists, getKey?_setKey_ne m k k' v hk]
    exact h

/-- Folding `setKey` over entries whose keys avoid `k` preserves the lookup
at `k`. -/
theorem getKey?_foldl_setKey_notmem {α : Type} (ps : List (Nat × α)) (m : List (Nat × α))
    (k : Nat) (h : k ∉ ps.map Prod.fst) :
    getKey? (List.foldl (fun acc p => setKey acc p.1 p.2) m ps) k = getKey? m k := by
  induction ps generalizing m with
  | nil => rfl
  | cons p rest ih =>
    simp only [List.map_cons, List.mem_cons, not_or] at h
    rw [List.foldl_cons, ih _ h.2, getKey?_setKey_ne _ _ _ _ (fun he => h.1 he.symm)]

/-- Folding `setKey` over a duplicate-free entry list makes the lookup at `k`
return the entry stored under `k`, whatever the initial map held. -/
theorem getKey?_foldl_setKey_first {α : Type} (ps : List (Nat × α)) (m : List (Nat × α))
    (k : Nat) (v : α) (hnd : (ps.map Prod.fst).Nodup) (hget : getKey? ps k = some v) :
    getKey? (List.foldl (fun acc p => setKey acc p.1 p.2) m ps) k = some v := by
  induction ps generalizing m with
  | nil => simp [getKey?] at hget
  | cons p rest ih =>
    simp only [List.map_cons, List.nodup_cons] at hnd
    rw [getKey?_cons] at hget
    by_cases hp : p.1 = k
    · rw [if_pos hp] at hget
      rw [List.foldl_cons, getKey?_foldl_setKey_notmem rest _ k (hp ▸ hnd.1), hp,
        getKey?_setKey_self]
      exact hget
    · rw [if_neg hp] at hget
      rw [List.foldl_cons]
      exact ih _ hnd.2 hget

/-! ## Lemmas about zone composition -/

/-- Ascending iteration over a two-element `std::set`. -/
theorem sort_le_pair (a b : ℕ) (hab : a < b) :
    ({a, b} : Finset ℕ).sort (· ≤ ·) = [a, b] := by
  rw [Finset.sort_insert]
  · rw [Finset.sort_singleton]
  · intro c hc
    rw [Finset.mem_singleton] at hc
    exact hc ▸ le_of_lt hab
  · rw [Finset.mem_singleton]
    exact Nat.ne_of_lt hab

/-- With no auto-apply mapping and no eligible extras the gathered partial-ID
set is empty. -/
theorem gather_empty (s : ServerDataManager) (zone : ServerZone) (extras : Finset ℕ)
    (hauto : (getKey? s.zonePartialMap zone.dynamicMapID).getD ∅ = ∅)
    (hex : ∀ pid ∈ extras, extraEligible s zone pid = false) :
    gatherPartialIDs s zone extras = ∅ := by
  unfold gatherPartialIDs
  rw [hauto, Finset.empty_union, Finset.filter_false_of_mem]
  intro pid hpid
  simp [hex pid hpid]

/-- With no applicable partials `GetZoneData` hands back exactly the stored
zone value, with neither the copy-and-merge path nor the repair pass run. -/
theorem getZoneData_no_partials (s : ServerDataManager) (id dmid : Nat)
    (extras : Finset ℕ) (zone : ServerZone)
    (hz : zoneLookup s id dmid = some zone)
    (hauto : (getKey? s.zonePartialMap zone.dynamicMapID).getD ∅ = ∅)
    (hex : ∀ pid ∈ extras, extraEligible s zone pid = false) :
    GetZoneData s id dmid true extras = some zone := by
  unfold GetZoneData
  rw [hz]
  simp [gather_empty s zone extras hauto hex]

/-- Once the gathered set's ascending enumeration is known, `GetZoneData` is
the fold of the partial applications followed by the repair pass. -/
theorem getZoneData_apply_sorted (s : ServerDataManager) (id dmid : Nat)
    (extras : Finset ℕ) (zone : ServerZone) (l : List Nat)
    (hz : zoneLookup s id dmid = some zone)
    (hc : 0 < (gatherPartialIDs s zone extras).card)
    (hl : (gatherPartialIDs s zone extras).sort (· ≤ ·) = l) :
    GetZoneData s id dmid true extras =
      (applyAllZonePartials s zone l).map repairSpawnInfo := by
  unfold GetZoneData
  rw [hz]
  simp only [if_true, hl, if_pos hc]
  cases applyAllZonePartials s zone l <;> simp

/-- The NPC conflict test of the code agrees with the claim's wording of the
conflict notion. -/
theorem npcConflict_eq_spec (a b : ServerNPC) :
    npcConflict a b = decide (specPlacementConflict a.spotID b.spotID a.x a.y b.x b.y) := by
  unfold npcConflict specPlacementConflict
  rw [decide_eq_decide]
  constructor
  · rintro (⟨h1, h2⟩ | ⟨h1, h2, h3, h4⟩)
    · exact Or.inl ⟨h2.symm, h1⟩
    · exact Or.inr ⟨h1, h2, by rwa [abs_sub_comm], by rwa [abs_sub_comm]⟩
  · rintro (⟨h1, h2⟩ | ⟨h1, h2, h3, h4⟩)
    · exact Or.inl ⟨h2, h1.symm⟩
    · exact Or.inr ⟨h1, h2, by rwa [abs_sub_comm], by rwa [abs_sub_comm]⟩

/-- The object conflict test of the code agrees with the claim's wording of
the conflict notion. -/
theorem objConflict_eq_spec (a b : ServerObject) :
    objConflict a b = decide (specPlacementConflict a.spotID b.spotID a.x a.y b.x b.y) := by
  unfold objConflict specPlacementConflict
  rw [decide_eq_decide]
  constructor
  · rintro (⟨h1, h2⟩ | ⟨h1, h2, h3, h4⟩)
    · exact Or.inl ⟨h2.symm, h1⟩
    · exact Or.inr ⟨h1, h2, by rwa [abs_sub_comm], by rwa [abs_sub_comm]⟩
  · rintro (⟨h1, h2⟩ | ⟨h1, h2, h3, h4⟩)
    · exact Or.inl ⟨h2, h1.symm⟩
    · exact Or.inr ⟨h1, h2, by rwa [abs_sub_comm], by rwa [abs_sub_comm]⟩

/-- The NPC list produced by the merge is the conflict-replacement fold. -/
theorem applyStatic_npcs (zone : ServerZone) (prt : ServerZonePartial) :
    (ApplyZonePartialStatic zone prt true).npcs =
      mergePlacements npcConflict ServerNPC.id zone.npcs prt.npcs := by
  unfold ApplyZonePartialStatic mergePlacements
  dsimp only
  congr 1
  funext acc e
  by_cases h : e.id ≠ 0 <;> simp [h]

/-- The object list produced by the merge is the conflict-replacement fold. -/
theorem applyStatic_objects (zone : ServerZone) (prt : ServerZonePartial) :
    (ApplyZonePartialStatic zone prt true).objects =
      mergePlacements objConflict ServerObject.id zone.objects prt.objects := by
  unfold ApplyZonePartialStatic mergePlacements
  dsimp only
  congr 1
  funext acc e
  by_cases h : e.id ≠ 0 <;> simp [h]

/-- A fold over a pair accumulator whose steps keep the zone's spots keeps
the zone's spots. -/
theorem foldl_pair_spots {β : Type} (f : ServerZone × List Nat → β → ServerZone × List Nat)
    (hf : ∀ acc x, ((f acc x).1).spots = (acc.1).spots) (init : ServerZone × List Nat)
    (l : List β) : ((List.foldl f init l).1).spots = (init.1).spots := by
  induction l generalizing init with
  | nil => rfl
  | cons x xs ih => rw [List.foldl_cons, ih (f init x), hf init x]

/-- A fold over the zone whose steps keep the spots keeps the spots. -/
theorem foldl_zone_spots {β : Type} (f : ServerZone → β → ServerZone)
    (hf : ∀ z x, (f z x).spots = z.spots) (init : ServerZone) (l : List β) :
    (List.foldl f init l).spots = init.spots := by
  induction l generalizing init with
  | nil => rfl
  | cons x xs ih => rw [List.foldl_cons, ih (f init x), hf init x]

/-- The repair pass touches only spawn groups and spawn location groups,
never the spots. -/
theorem repairSpawnInfo_spots (z : ServerZone) : (repairSpawnInfo z).spots = z.spots := by
  unfold repairSpawnInfo
  dsimp only
  rw [foldl_zone_spots (fun zc r => removeSpawnLocationGroups zc r) (fun _ _ => rfl),
    foldl_pair_spots _ ?h1, foldl_zone_spots (fun zc r => removeSpawnGroups zc r) (fun _ _ => rfl),
    foldl_pair_spots _ ?h2]
  case h1 =>
    intro acc x
    dsimp only
    split <;> (try split) <;> rfl
  case h2 =>
    intro acc x
    dsimp only
    split <;> (try split) <;> rfl

/-- The spot map after a merge is the keyed overwrite of the partial's
spots. -/
theorem applyStatic_spots (zone : ServerZone) (prt : ServerZonePartial) (pr : Bool) :
    (ApplyZonePartialStatic zone prt pr).spots =
      List.foldl (fun m p => setKey m p.1 p.2) zone.spots prt.spots := rfl

/-- The apply loop on an empty ID list returns the zone. -/
theorem applyAll_nil (s : ServerDataManager) (zone : ServerZone) :
    applyAllZonePartials s zone [] = some zone := rfl

/-- One step of the apply loop on a resolvable non-zero ID. -/
theorem applyAll_cons (s : ServerDataManager) (zone : ServerZone) (pid : Nat)
    (rest : List Nat) (p : ServerZonePartial) (h0 : pid ≠ 0)
    (hp : GetZonePartialData s pid = some p) :
    applyAllZonePartials s zone (pid :: rest) =
      applyAllZonePartials s (ApplyZonePartialStatic zone p true) rest := by
  conv_lhs => rw [applyAllZonePartials]
  rw [if_neg h0, hp]

/-! ## Lemmas about the loaders -/

/-- Registering a zone never removes an existing (zoneID, dynamicMapID)
entry. -/
theorem zoneKeyExists_registerZone (s : ServerDataManager) (zone : ServerZone)
    (isField : Bool) (a b : Nat) (h : zoneKeyExists s a b = true) :
    zoneKeyExists (registerZone s zone isField) a b = true := by
  unfold zoneKeyExists registerZone at *
  dsimp only
  by_cases ha : zone.id = a
  · subst ha
    rw [getKey?_setKey_self]
    cases hg : getKey? s.zoneData zone.id with
    | none => rw [hg] at h; simp at h
    | some inner =>
      rw [hg] at h
      simp only [Option.getD_some]
      exact keyExists_setKey inner b zone.dynamicMapID zone (by simpa using h)
  · rw [getKey?_setKey_ne _ _ _ _ ha]
    exact h

/-- The zone-load body never removes an existing zone entry, whether it
fails or succeeds. -/
theorem zoneKeyExists_loadZoneObjectBody (dm : Option DefinitionManager) (isField : Bool)
    (s : ServerDataManager) (z : ServerZone) (a b : Nat)
    (h : zoneKeyExists s a b = true) :
    zoneKeyExists (loadZoneObjectBody dm isField s z).1 a b = true := by
  unfold loadZoneObjectBody
  split
  · exact h
  · split
    · exact h
    · split
      · exact h
      · split
        · exact h
        · exact zoneKeyExists_registerZone s z isField a b h

/-- Loading one zone object never removes an existing zone entry. -/
theorem zoneKeyExists_loadZoneObject (dm : Option DefinitionManager)
    (s : ServerDataManager) (z : ServerZone) (a b : Nat)
    (h : zoneKeyExists s a b = true) :
    zoneKeyExists (loadZoneObject dm s z).1 a b = true := by
  unfold loadZoneObject
  cases dm with
  | none => exact zoneKeyExists_loadZoneObjectBody none false s z a b h
  | some d =>
    dsimp only
    cases d.zoneData z.id with
    | none => exact h
    | some def0 => exact zoneKeyExists_loadZoneObjectBody (some d) _ s z a b h

/-- The zone-object loop never removes an existing zone entry, even when it
stops at a failing object. -/
theorem loadZoneObjects_mono (dm : Option DefinitionManager) (zs : List ServerZone)
    (s : ServerDataManager) (a b : Nat) (h : zoneKeyExists s a b = true) :
    zoneKeyExists (loadZoneObjects dm s zs).1 a b = true := by
  induction zs generalizing s with
  | nil => exact h
  | cons z rest ih =>
    unfold loadZoneObjects
    dsimp only
    split
    · exact ih _ (zoneKeyExists_loadZoneObject dm s z a b h)
    · exact zoneKeyExists_loadZoneObject dm s z a b h

/-- The zone-object loop stops at the first failing object, keeping its
state. -/
theorem loadZoneObjects_cons_fail (dm : Option DefinitionManager)
    (s s' : ServerDataManager) (z : ServerZone) (rest : List ServerZone)
    (h : loadZoneObject dm s z = (s', false)) :
    loadZoneObjects dm s (z :: rest) = (s', false) := by
  unfold loadZoneObjects
  rw [h]
  rfl

/-- The post-skip instance checks enforce equal lengths and resolvable
pairs. -/
theorem loadZoneInstanceBody_checks (s : ServerDataManager) (inst : ServerZoneInstance)
    (hok : (loadZoneInstanceBody s inst).2 = true) :
    inst.zoneIDs.length = inst.dynamicMapIDs.length ∧
      ∀ i < inst.zoneIDs.length,
        zoneKeyExists s (inst.zoneIDs.getD i 0) (inst.dynamicMapIDs.getD i 0) = true := by
  unfold loadZoneInstanceBody at hok
  by_cases hlen : inst.zoneIDs.length ≠ inst.dynamicMapIDs.length
  · rw [if_pos hlen] at hok
    exact absurd hok (by simp)
  · rw [if_neg hlen] at hok
    refine ⟨not_ne_iff.mp hlen, ?_⟩
    cases hall : (List.range inst.zoneIDs.length).all (fun i =>
        zoneKeyExists s (inst.zoneIDs.getD i 0) (inst.dynamicMapIDs.getD i 0)) with
    | false =>
      rw [hall] at hok
      simp at hok
    | true =>
      intro i hi
      exact List.all_eq_true.mp hall i (List.mem_range.mpr hi)

/-- Membership in a `Nat` list through default-valued indexing. -/
theorem mem_iff_exists_getD (l : List Nat) (a : Nat) :
    a ∈ l ↔ ∃ i, i < l.length ∧ l.getD i 0 = a := by
  rw [List.mem_iff_getElem]
  constructor
  · rintro ⟨i, hlt, rfl⟩
    refine ⟨i, hlt, ?_⟩
    simp [List.getD_eq_getElem?_getD, List.getElem?_eq_getElem hlt]
  · rintro ⟨i, hlt, heq⟩
    refine ⟨i, hlt, ?_⟩
    simp only [List.getD_eq_getElem?_getD, List.getElem?_eq_getElem hlt,
      Option.getD_some] at heq
    exact heq

/-! ## Claim theorems -/

/-- C1: the post-merge repair pass does not behave as the claim states.  On
the concrete store, zone (1, 1) holds spawns {1, 3} and partial 5 installs
spawn group 10 referencing spawns {1, 2, 3}; the claim says the derived
zone's group 10 must reference exactly {1, 3}.  Evaluating `GetZoneData`
shows the derived zone's group 10 still references [1, 2, 3] while spawn 2
does not exist in it: the code's strip step removes the members of
`sgRemoves` (IDs of fully-dangling spawn groups, here empty) instead of the
computed `missingSpawns`, leaving the dangling spawn reference in place. -/
theorem C1_dangling_spawn_reference_kept :
    (GetZoneData exStore 1 1 true {5}).map
        (fun z => ((getKey? z.spawnGroups 10).map (fun g => g.spawns.map Prod.fst),
          keyExists z.spawns 2)) =
      some (some [1, 2, 3], false) := by
  have hg : gatherPartialIDs exStore exZone {5} = {5} := by decide
  rw [getZoneData_apply_sorted exStore 1 1 {5} exZone [5] rfl
    (by rw [hg]; decide) (by rw [hg]; exact Finset.sort_singleton _ 5)]
  decide

/-- C2: with `positionReplace` true the static `ApplyZonePartial` treats the
NPC and object lists identically, as the one conflict-replacement fold with
the claim's conflict notion (same non-zero spot ID, or both spot-free and
closer than 10.0 on each axis); an incoming entry with ID 0 removes every
conflicting entry and appends nothing (a pure delete). -/
theorem C2_npc_object_conflict_merge (zone : ServerZone) (prt : ServerZonePartial) :
    ((ApplyZonePartialStatic zone prt true).npcs =
      mergePlacements
        (fun a b => decide (specPlacementConflict a.spotID b.spotID a.x a.y b.x b.y))
        ServerNPC.id zone.npcs prt.npcs) ∧
    ((ApplyZonePartialStatic zone prt true).objects =
      mergePlacements
        (fun a b => decide (specPlacementConflict a.spotID b.spotID a.x a.y b.x b.y))
        ServerObject.id zone.objects prt.objects) ∧
    (∀ npc : ServerNPC, prt.npcs = [npc] → npc.id = 0 →
      (ApplyZonePartialStatic zone prt true).npcs =
        zone.npcs.filter (fun o => !npcConflict npc o)) ∧
    (∀ obj : ServerObject, prt.objects = [obj] → obj.id = 0 →
      (ApplyZonePartialStatic zone prt true).objects =
        zone.objects.filter (fun o => !objConflict obj o)) := by
  have hn : (fun (a b : ServerNPC) =>
      decide (specPlacementConflict a.spotID b.spotID a.x a.y b.x b.y)) = npcConflict := by
    funext a b
    exact (npcConflict_eq_spec a b).symm
  have ho : (fun (a b : ServerObject) =>
      decide (specPlacementConflict a.spotID b.spotID a.x a.y b.x b.y)) = objConflict := by
    funext a b
    exact (objConflict_eq_spec a b).symm
  refine ⟨by rw [hn]; exact applyStatic_npcs zone prt,
    by rw [ho]; exact applyStatic_objects zone prt, ?_, ?_⟩
  · intro npc hlist hid
    rw [applyStatic_npcs, hlist]
    simp [mergePlacements, hid]
  · intro obj hlist hid
    rw [applyStatic_objects, hlist]
    simp [mergePlacements, hid]

/-- C4 counterexample: the claim says an explicitly supplied extra partial ID
that does not resolve to any stored partial makes the whole resolution fail
(return null).  On the concrete store, extra ID 99 resolves to no partial,
yet `GetZoneData` still returns the base zone. -/
theorem C4_unresolved_extra_skipped_cex :
    GetZoneData exStore 1 1 true {99} = some exZone ∧
      GetZonePartialData exStore 99 = none := by
  constructor
  · apply getZoneData_no_partials exStore 1 1 {99} exZone rfl rfl
    intro pid hpid
    rw [Finset.mem_singleton] at hpid
    subst hpid
    rfl
  · rfl

/-- C4 as amended: an extra partial ID that fails the eligibility test — it
does not resolve to a stored partial, or it resolves to one that is
auto-apply or scoped to other dynamic map IDs — is silently skipped: adding
it to the extra set leaves the result of `GetZoneData` unchanged. -/
theorem C4_ineligible_extra_silently_skipped (s : ServerDataManager) (id dmid : Nat)
    (extras : Finset ℕ) (pid : Nat) (zone : ServerZone)
    (hz : zoneLookup s id dmid = some zone)
    (hpid : extraEligible s zone pid = false) :
    GetZoneData s id dmid true (insert pid extras) = GetZoneData s id dmid true extras := by
  have hg : gatherPartialIDs s zone (insert pid extras) = gatherPartialIDs s zone extras := by
    unfold gatherPartialIDs
    congr 1
    rw [Finset.filter_insert, if_neg]
    simp [hpid]
  unfold GetZoneData
  rw [hz]
  simp only [hg]

/-- Witness for C4: on the concrete store the unresolvable extra ID 99 is
skipped. -/
theorem C4_ineligible_extra_silently_skipped_witness :
    GetZoneData exStore 1 1 true (insert 99 ∅) = GetZoneData exStore 1 1 true ∅ :=
  C4_ineligible_extra_silently_skipped exStore 1 1 ∅ 99 exZone rfl rfl

/-- C5: with two eligible extra partials of IDs i1 < i2 and no auto-apply
partials, `GetZoneData` applies them in ascending ID order, so when the
higher-ID partial writes spot key k the derived zone holds that partial's
spot there; and the result is independent of the enumeration order of the
caller-supplied extra set (any two permuted lists give equal results). -/
theorem C5_ascending_partial_id_order (s : ServerDataManager) (id dmid : Nat)
    (zone : ServerZone) (i1 i2 k : Nat) (p1 p2 : ServerZonePartial) (v2 : ServerZoneSpot)
    (hz : zoneLookup s id dmid = some zone)
    (hauto : (getKey? s.zonePartialMap zone.dynamicMapID).getD ∅ = ∅)
    (h0 : 0 < i1) (h12 : i1 < i2)
    (hp1 : GetZonePartialData s i1 = some p1)
    (hp2 : GetZonePartialData s i2 = some p2)
    (he1 : extraEligible s zone i1 = true)
    (he2 : extraEligible s zone i2 = true)
    (hnd : (p2.spots.map Prod.fst).Nodup)
    (hk : getKey? p2.spots k = some v2) :
    (∃ z', GetZoneData s id dmid true {i1, i2} = some z' ∧
        getKey? z'.spots k = some v2) ∧
    (∀ l1 l2 : List Nat, l1.Perm l2 →
      GetZoneData s id dmid true l1.toFinset = GetZoneData s id dmid true l2.toFinset) := by
  constructor
  · have hg : gatherPartialIDs s zone {i1, i2} = {i1, i2} := by
      unfold gatherPartialIDs
      rw [hauto, Finset.empty_union, Finset.filter_true_of_mem]
      intro x hx
      rw [Finset.mem_insert, Finset.mem_singleton] at hx
      rcases hx with rfl | rfl
      · exact he1
      · exact he2
    have happ : applyAllZonePartials s zone [i1, i2] =
        some (ApplyZonePartialStatic (ApplyZonePartialStatic zone p1 true) p2 true) := by
      rw [applyAll_cons s zone i1 [i2] p1 (Nat.pos_iff_ne_zero.mp h0) hp1,
        applyAll_cons s _ i2 [] p2 (Nat.pos_iff_ne_zero.mp (lt_trans h0 h12)) hp2,
        applyAll_nil]
    refine ⟨repairSpawnInfo
        (ApplyZonePartialStatic (ApplyZonePartialStatic zone p1 true) p2 true), ?_, ?_⟩
    · rw [getZoneData_apply_sorted s id dmid {i1, i2} zone [i1, i2] hz
        (by rw [hg]; exact Finset.card_pos.mpr ⟨i1, by simp⟩)
        (by rw [hg]; exact sort_le_pair i1 i2 h12), happ]
      rfl
    · rw [repairSpawnInfo_spots, applyStatic_spots]
      exact getKey?_foldl_setKey_first p2.spots _ k v2 hnd hk
  · intro l1 l2 hperm
    rw [List.toFinset_eq_of_perm l1 l2 hperm]

/-- Witness for C5: partials 5 and 7 both write spot key 2; the derived zone
holds partial 7's spot, whichever way the extra set is enumerated. -/
theorem C5_ascending_partial_id_order_witness :
    (∃ z', GetZoneData exStoreSpots 1 1 true {5, 7} = some z' ∧
        getKey? z'.spots 2 = some exSpotB) ∧
    (∀ l1 l2 : List Nat, l1.Perm l2 →
      GetZoneData exStoreSpots 1 1 true l1.toFinset =
        GetZoneData exStoreSpots 1 1 true l2.toFinset) :=
  C5_ascending_partial_id_order exStoreSpots 1 1 exZone 5 7 2 exPartial5 exPartial7 exSpotB
    rfl rfl (by decide) (by decide) rfl rfl (by decide) (by decide) (by decide) rfl

/-- C6: a stored zone with no auto-apply partial mapped to its dynamic map
ID and no eligible supplied extra is returned by `GetZoneData` with
`applyPartials` true exactly as stored: the result is the stored zone value
itself, the copy-and-merge path never runs, and the pure model's store is
untouched by construction. -/
theorem C6_no_partials_returns_stored_zone (s : ServerDataManager) (id dmid : Nat)
    (extras : Finset ℕ) (zone : ServerZone)
    (hz : zoneLookup s id dmid = some zone)
    (hauto : (getKey? s.zonePartialMap zone.dynamicMapID).getD ∅ = ∅)
    (hex : ∀ pid ∈ extras, extraEligible s zone pid = false) :
    GetZoneData s id dmid true extras = some zone :=
  getZoneData_no_partials s id dmid extras zone hz hauto hex

/-- Witness for C6: the concrete store's zone (1, 1) with no applicable
partials comes back as stored. -/
theorem C6_no_partials_returns_stored_zone_witness :
    GetZoneData exStore 1 1 true ∅ = some exZone :=
  C6_no_partials_returns_stored_zone exStore 1 1 ∅ exZone rfl rfl
    (fun pid hpid => absurd hpid (Finset.not_mem_empty pid))

/-- C8 counterexample: the claim says a failing load leaves no definitions
registered before the failing object.  Concretely, zone (2, 2) loads and is
registered, then zone (3, 3) fails its spawn-location-group check; the loop
reports failure yet zone (2, 2) is still registered in the resulting
store. -/
theorem C8_registered_state_retained_cex :
    (loadZoneObjects none emptyManager [exZoneOK, exZoneBadSLG]).2 = false ∧
      zoneKeyExists (loadZoneObjects none emptyManager [exZoneOK, exZoneBadSLG]).1 2 2 = true := by
  decide

/-- C8 as amended: loading is fail-fast — the object loop stops at the first
failing object with that state — but nothing is rolled back: every zone
entry registered before the failure (or by the failing object itself, which
registers before validating its NPC, object, plasma, spot and trigger
actions) remains in the store. -/
theorem C8_fail_fast_and_state_retention :
    (∀ (dm : Option DefinitionManager) (s s' : ServerDataManager) (z : ServerZone)
        (rest : List ServerZone), loadZoneObject dm s z = (s', false) →
      loadZoneObjects dm s (z :: rest) = (s', false)) ∧
    (∀ (dm : Option DefinitionManager) (zs : List ServerZone) (s : ServerDataManager)
        (a b : Nat), zoneKeyExists s a b = true →
      zoneKeyExists (loadZoneObjects dm s zs).1 a b = true) :=
  ⟨loadZoneObjects_cons_fail, loadZoneObjects_mono⟩

/-- C9 counterexample: the claim says a zoneID/dynamicMapID length mismatch
fails the instance's load.  When a definition manager is present and does
not know the instance's lobby, the loader skips the object and returns true,
even for the mismatched instance. -/
theorem C9_unknown_lobby_skip_cex :
    (loadZoneInstanceObject (some exDMUnknown) emptyManager exInstMismatch).2 = true ∧
      exInstMismatch.zoneIDs.length ≠ exInstMismatch.dynamicMapIDs.length := by
  constructor
  · rfl
  · decide

/-- C9 as amended: provided the instance is not skipped for an unknown lobby
(no definition manager, or one that knows the lobby zone), a successful load
forces the zoneID and dynamicMapID sequences to have equal length and every
index-aligned pair to resolve to a registered zone; a mismatch or a dangling
pair therefore returns false. -/
theorem C9_instance_load_checks (dm : Option DefinitionManager) (s : ServerDataManager)
    (inst : ServerZoneInstance)
    (hns : ∀ d, dm = some d → (d.zoneData inst.lobbyID).isSome = true)
    (hok : (loadZoneInstanceObject dm s inst).2 = true) :
    inst.zoneIDs.length = inst.dynamicMapIDs.length ∧
      ∀ i < inst.zoneIDs.length,
        zoneKeyExists s (inst.zoneIDs.getD i 0) (inst.dynamicMapIDs.getD i 0) = true := by
  apply loadZoneInstanceBody_checks s inst
  unfold loadZoneInstanceObject at hok
  cases dm with
  | none => exact hok
  | some d =>
    have hd := hns d rfl
    rw [if_neg] at hok
    · exact hok
    · simp only [Option.isSome_iff_ne_none] at hd
      simp [Option.isNone_eq_false_iff, hd]

/-- Witness for C9: the well-formed instance over zone (1, 1) loads, and the
theorem yields its length and resolvability facts. -/
theorem C9_instance_load_checks_witness :
    exInstOK.zoneIDs.length = exInstOK.dynamicMapIDs.length ∧
      ∀ i < exInstOK.zoneIDs.length,
        zoneKeyExists exStore (exInstOK.zoneIDs.getD i 0)
          (exInstOK.dynamicMapIDs.getD i 0) = true :=
  C9_instance_load_checks none exStore exInstOK
    (fun d h => Option.noConfusion h) (by decide)

/-- C10: `ExistsInInstance` treats dynamic map ID 0 as a wildcard — with 0
it is membership of the zone ID in the instance's zoneID sequence, with a
non-zero ID some index must hold exactly the pair, and an unknown instance
ID always gives false. -/
theorem C10_exists_in_instance_wildcard (s : ServerDataManager)
    (instanceID zoneID dynamicMapID : Nat) :
    (getKey? s.zoneInstanceData instanceID = none →
      ExistsInInstance s instanceID zoneID dynamicMapID = false) ∧
    (∀ inst, getKey? s.zoneInstanceData instanceID = some inst →
      (ExistsInInstance s instanceID zoneID 0 = true ↔ zoneID ∈ inst.zoneIDs)) ∧
    (∀ inst, getKey? s.zoneInstanceData instanceID = some inst → dynamicMapID ≠ 0 →
      (ExistsInInstance s instanceID zoneID dynamicMapID = true ↔
        ∃ i, i < inst.zoneIDs.length ∧ inst.zoneIDs.getD i 0 = zoneID ∧
          inst.dynamicMapIDs.getD i 0 = dynamicMapID)) := by
  refine ⟨?_, ?_, ?_⟩
  · intro hnone
    unfold ExistsInInstance
    rw [hnone]
  · intro inst hsome
    unfold ExistsInInstance
    rw [hsome, List.any_eq_true, mem_iff_exists_getD]
    constructor
    · rintro ⟨i, hmem, hcond⟩
      simp only [decide_eq_true_eq, Bool.and_eq_true, Bool.or_eq_true] at hcond
      exact ⟨i, List.mem_range.mp hmem, hcond.1⟩
    · rintro ⟨i, hlt, heq⟩
      exact ⟨i, List.mem_range.mpr hlt, by simp [← List.getD_eq_getElem?_getD, heq]⟩
  · intro inst hsome hdm
    unfold ExistsInInstance
    rw [hsome, List.any_eq_true]
    constructor
    · rintro ⟨i, hmem, hcond⟩
      simp only [decide_eq_true_eq, Bool.and_eq_true, Bool.or_eq_true] at hcond
      rcases hcond with ⟨h1, h2 | h3⟩
      · exact absurd h2 hdm
      · exact ⟨i, List.mem_range.mp hmem, h1, h3⟩
    · rintro ⟨i, hlt, h1, h2⟩
      exact ⟨i, List.mem_range.mpr hlt, by simp [← List.getD_eq_getElem?_getD, h1, h2]⟩

end CompHack
